import Mathlib

/-!
Verification of the key/item translation and mapping-semantics layer of
`dynamodb_mapping` (file `dynamodb_mapping/dynamodb_mapping.py`).

The Python source is shallowly embedded: Python values that may appear in a
DynamoDB item are the inductive `DynamoDBValue`; Python dictionaries are
insertion-ordered association lists; the remote table store (boto3 / DynamoDB,
an external collaborator of the library) is modelled from the spec as explicit
state plus a log of issued remote calls; the lazy `scan` generator is modelled
both as a full unfolding (requests and yielded items of a run to exhaustion)
and as a step machine (one `next()` call at a time) for the laziness/demand
properties.
-/

/-- A DynamoDB attribute value, after boto3 deserialization, as classified by
`DynamoDBValueTypes` in the source: strings, numbers (int / arbitrary
precision `Decimal`, the latter kept opaque as a mantissa/exponent pair),
binary data (`bytes` / `bytearray`, as byte lists), booleans and `None`.
The collection-valued alternatives of the source union (lists, maps, sets) are
not inspected by any algorithm modelled here (the key codec and the update
compiler treat them like any other non-null, non-primitive-key value) and are
omitted from the embedding. -/
inductive DynamoDBValue where
  | str (s : String)
  | int (n : Int)
  | decimal (mantissa exponent : Int)
  | binary (b : List Nat)
  | bytearr (b : List Nat)
  | boolean (b : Bool)
  | null
  deriving DecidableEq, Repr

/-- Python `isinstance(v, DynamoDBKeyPrimitiveTypes)` where
`DynamoDBKeyPrimitiveTypes = (str, bytes, bytearray, int, Decimal)`.
Note that Python `bool` is a subclass of `int`, so booleans also satisfy the
`isinstance` check; `None` does not. -/
def isDynamoDBKeyPrimitive : DynamoDBValue → Bool
  | .str _ => true
  | .int _ => true
  | .decimal _ _ => true
  | .binary _ => true
  | .bytearr _ => true
  | .boolean _ => true
  | .null => false

/-- Python `isinstance(v, Iterable)` on the embedded values: strings, `bytes`
and `bytearray` are iterable; numbers, booleans and `None` are not. -/
def isPyIterableValue : DynamoDBValue → Bool
  | .str _ => true
  | .binary _ => true
  | .bytearr _ => true
  | .int _ => false
  | .decimal _ _ => false
  | .boolean _ => false
  | .null => false

/-- A Python object in key position: either a plain value or a tuple of
values.  `simplify_tuple_keys` maps tuples to this type and
`create_tuple_keys` maps it back to a tuple (`DynamoDBKeySimplified` in the
source). -/
inductive PyKeyObject where
  | val (v : DynamoDBValue)
  | tup (l : List DynamoDBValue)
  deriving DecidableEq, Repr

/-- Python `isinstance(key, DynamoDBKeyPrimitiveTypes)` on a key object:
tuples are never instances of the primitive types. -/
def PyKeyObject.isKeyPrimitiveInstance : PyKeyObject → Bool
  | .val v => isDynamoDBKeyPrimitive v
  | .tup _ => false

/-- Python `isinstance(key, Iterable)` on a key object: tuples are iterable,
values iterate exactly when `isPyIterableValue` holds. -/
def PyKeyObject.isIterableInstance : PyKeyObject → Bool
  | .val v => isPyIterableValue v
  | .tup _ => true

/-- `simplify_tuple_keys` (source lines 127-142): if `len(key) == 1` return
`key[0]`, otherwise return the tuple unchanged. -/
def simplify_tuple_keys : List DynamoDBValue → PyKeyObject
  | [v] => .val v
  | l => .tup l

/-- `create_tuple_keys` (source lines 145-161).  The source branches on
`not isinstance(key, DynamoDBKeyPrimitiveTypes) and isinstance(key, Iterable)`:
when the guard holds it returns `tuple(key)`, otherwise `(key,)`.  On the
embedded key objects the guard holds exactly for tuple inputs (see
`create_tuple_keys_guard`): every iterable plain value (a string, `bytes`, or
`bytearray`) is also a key primitive, so plain values always take the `else`
branch and are wrapped in a one-element tuple. -/
def create_tuple_keys : PyKeyObject → List DynamoDBValue
  | .tup l => l
  | .val v => [v]

/-- The branch condition of `create_tuple_keys` holds exactly on tuples, which
justifies the two-branch form of the embedding above. -/
theorem create_tuple_keys_guard (key : PyKeyObject) :
    ((key.isKeyPrimitiveInstance = false) ∧ key.isIterableInstance = true)
      ↔ ∃ l, key = .tup l := by
  cases key with
  | val v => cases v <;> simp [PyKeyObject.isKeyPrimitiveInstance,
      PyKeyObject.isIterableInstance, isDynamoDBKeyPrimitive, isPyIterableValue]
  | tup l => simp [PyKeyObject.isKeyPrimitiveInstance, PyKeyObject.isIterableInstance]

/-- A Python dictionary with string keys, embedded as its insertion-ordered
list of key/value bindings (CPython dictionaries preserve insertion order).
Dictionaries built by the modelled code never hold two bindings for the same
key. -/
abbrev PyDict := List (String × DynamoDBValue)

/-- Python `d[k]` as a total lookup: the binding of the first occurrence of
`k`, or `none` (standing for `KeyError`) when `k` is absent. -/
def dictGet (d : PyDict) (k : String) : Option DynamoDBValue :=
  (d.find? (fun kv => kv.1 == k)).map (fun kv => kv.2)

/-- Python `d[k] = v`: replace the binding in place if `k` is present
(keeping its position), otherwise append a new binding at the end. -/
def dictSet : PyDict → String → DynamoDBValue → PyDict
  | [], k, v => [(k, v)]
  | kv :: rest, k, v =>
      if kv.1 == k then (k, v) :: rest else kv :: dictSet rest k v

/-- Python `k in d`. -/
def dictContains (d : PyDict) (k : String) : Bool :=
  d.any (fun kv => kv.1 == k)

/-- Removal of an attribute from a dictionary (all bindings of `k`). -/
def dictRemove (d : PyDict) (k : String) : PyDict :=
  d.filter (fun kv => kv.1 != k)

/-- Python `==` on dictionaries: order-insensitive agreement of bindings. -/
def pyDictEq (a b : PyDict) : Bool :=
  a.all (fun kv => dictGet b kv.1 == some kv.2) &&
  b.all (fun kv => dictGet a kv.1 == some kv.2)

/-- A DynamoDB item (`DynamoDBItemType` in the source): a mapping from
attribute names to values. -/
abbrev Item := PyDict

/-- C3: the Key Codec functions are mutually inverse on their declared
domains: for every simplified key `k` — a key primitive (string, bytes,
byte-buffer, integer, or decimal) or a pair of such primitives —
`simplify_tuple_keys (create_tuple_keys k) = k`; for every native key that is
a tuple of one or two primitives, `create_tuple_keys (simplify_tuple_keys n) = n`;
and a bytes/bytearray key, although iterable in Python, is treated as atomic:
it is wrapped as a one-element tuple and never decomposed into its bytes. -/
theorem C3_codec_round_trip :
    (∀ v : DynamoDBValue, isDynamoDBKeyPrimitive v = true →
      simplify_tuple_keys (create_tuple_keys (.val v)) = .val v) ∧
    (∀ a b : DynamoDBValue, isDynamoDBKeyPrimitive a = true →
      isDynamoDBKeyPrimitive b = true →
      simplify_tuple_keys (create_tuple_keys (.tup [a, b])) = .tup [a, b]) ∧
    (∀ v : DynamoDBValue, isDynamoDBKeyPrimitive v = true →
      create_tuple_keys (simplify_tuple_keys [v]) = [v]) ∧
    (∀ a b : DynamoDBValue, isDynamoDBKeyPrimitive a = true →
      isDynamoDBKeyPrimitive b = true →
      create_tuple_keys (simplify_tuple_keys [a, b]) = [a, b]) ∧
    (∀ bs : List Nat,
      PyKeyObject.isIterableInstance (.val (.binary bs)) = true ∧
      PyKeyObject.isIterableInstance (.val (.bytearr bs)) = true ∧
      create_tuple_keys (.val (.binary bs)) = [.binary bs] ∧
      create_tuple_keys (.val (.bytearr bs)) = [.bytearr bs]) := by
  refine ⟨fun v _ => rfl, fun a b _ _ => rfl, fun v _ => rfl,
    fun a b _ _ => rfl, fun bs => ⟨rfl, rfl, rfl, rfl⟩⟩

/-- Witness for `C3_codec_round_trip`: instantiated at the string key
`"my_key"`, the composite key `("pk", 42)` and the bytes key `b"ab"`. -/
theorem C3_codec_round_trip_witness :
    simplify_tuple_keys (create_tuple_keys (.val (.str "my_key"))) = .val (.str "my_key") ∧
    create_tuple_keys (simplify_tuple_keys [.str "pk", .int 42]) = [.str "pk", .int 42] ∧
    create_tuple_keys (.val (.binary [97, 98])) = [.binary [97, 98]] := by
  refine ⟨C3_codec_round_trip.1 (.str "my_key") (by decide),
    C3_codec_round_trip.2.2.2.1 (.str "pk") (.int 42) (by decide) (by decide),
    (C3_codec_round_trip.2.2.2.2 [97, 98]).2.2.1⟩

/-- The four accumulators built by the placeholder loop of `modify_item`
(source lines 495-507): `set_expression_parts`, `remove_expression_parts`,
`attribute_names` and `attribute_values`. -/
structure CompiledUpdate where
  set_expression_parts : List String
  remove_expression_parts : List String
  attribute_names : List (String × String)
  attribute_values : List (String × DynamoDBValue)
  deriving DecidableEq, Repr

/-- The `for idx, (attrib_key, attrib_value) in enumerate(modifications.items())`
loop of `modify_item` (source lines 499-507), with the enumeration index
threaded explicitly: each entry allocates the name placeholder `#key{idx}`;
a `None` value appends the name placeholder to the REMOVE parts, any other
value appends `#key{idx} = :value{idx}` to the SET parts and binds the value
placeholder. -/
def modify_compile : Nat → List (String × DynamoDBValue) → CompiledUpdate
  | _, [] => ⟨[], [], [], []⟩
  | idx, (attrib_key, attrib_value) :: rest =>
      let attrib_key_ph := "#key" ++ toString idx
      let attrib_value_ph := ":value" ++ toString idx
      let r := modify_compile (idx + 1) rest
      if attrib_value = DynamoDBValue.null then
        ⟨r.set_expression_parts,
         attrib_key_ph :: r.remove_expression_parts,
         (attrib_key_ph, attrib_key) :: r.attribute_names,
         r.attribute_values⟩
      else
        ⟨(attrib_key_ph ++ " = " ++ attrib_value_ph) :: r.set_expression_parts,
         r.remove_expression_parts,
         (attrib_key_ph, attrib_key) :: r.attribute_names,
         (attrib_value_ph, attrib_value) :: r.attribute_values⟩

/-- `update_expression_parts` of `modify_item` (source lines 508-514): the
SET clause (entries joined by `", "`, prefixed `"set "`) when there are SET
parts, followed by the REMOVE clause (joined by `", "`, prefixed `"remove "`)
when there are REMOVE parts. -/
def update_expression_parts (c : CompiledUpdate) : List String :=
  (if c.set_expression_parts ≠ [] then
    ["set " ++ String.intercalate ", " c.set_expression_parts] else []) ++
  (if c.remove_expression_parts ≠ [] then
    ["remove " ++ String.intercalate ", " c.remove_expression_parts] else [])

/-- `update_expression = " ".join(update_expression_parts)` (source line 523). -/
def update_expression (c : CompiledUpdate) : String :=
  String.intercalate " " (update_expression_parts c)

/-- Characterization of the compile loop at an arbitrary starting index, in
terms of `List.enumFrom`: names are allocated in iteration order, entries are
classified by the `is None` test. -/
theorem modify_compile_enumFrom (idx : Nat) (mods : List (String × DynamoDBValue)) :
    modify_compile idx mods =
      ⟨((List.enumFrom idx mods).filter
          (fun p => p.2.2 ≠ DynamoDBValue.null)).map
          (fun p => "#key" ++ toString p.1 ++ " = " ++ (":value" ++ toString p.1)),
        ((List.enumFrom idx mods).filter
          (fun p => p.2.2 = DynamoDBValue.null)).map
          (fun p => "#key" ++ toString p.1),
        (List.enumFrom idx mods).map
          (fun p => ("#key" ++ toString p.1, p.2.1)),
        ((List.enumFrom idx mods).filter
          (fun p => p.2.2 ≠ DynamoDBValue.null)).map
          (fun p => (":value" ++ toString p.1, p.2.2))⟩ := by
  induction mods generalizing idx with
  | nil => rfl
  | cons kv rest ih =>
      obtain ⟨k, v⟩ := kv
      by_cases hv : v = DynamoDBValue.null <;>
        simp [modify_compile, ih, List.enumFrom, hv, List.filter]

/-- C2: for the modification mapping
`{"new1": "v1", "new2": "v2", "zombie": None}` iterated in that order, the
update compiler of `modify_item` produces exactly the update expression
`"set #key0 = :value0, #key1 = :value1 remove #key2"`, the attribute-name
placeholder map `{#key0: "new1", #key1: "new2", #key2: "zombie"}` and the
attribute-value placeholder map `{:value0: "v1", :value1: "v2"}`; and in
general placeholder indices are assigned per call starting at 0 in input
iteration order, with null-valued entries going to the REMOVE clause and all
other entries to the SET clause. -/
theorem C2_update_compiler :
    (modify_compile 0
        [("new1", .str "v1"), ("new2", .str "v2"), ("zombie", .null)] =
      ⟨["#key0 = :value0", "#key1 = :value1"], ["#key2"],
        [("#key0", "new1"), ("#key1", "new2"), ("#key2", "zombie")],
        [(":value0", .str "v1"), (":value1", .str "v2")]⟩) ∧
    (update_expression (modify_compile 0
        [("new1", .str "v1"), ("new2", .str "v2"), ("zombie", .null)]) =
      "set #key0 = :value0, #key1 = :value1 remove #key2") ∧
    (∀ mods : List (String × DynamoDBValue),
      (modify_compile 0 mods).attribute_names =
        mods.enum.map (fun p => ("#key" ++ toString p.1, p.2.1)) ∧
      (modify_compile 0 mods).set_expression_parts =
        (mods.enum.filter (fun p => p.2.2 ≠ DynamoDBValue.null)).map
          (fun p => "#key" ++ toString p.1 ++ " = " ++ (":value" ++ toString p.1)) ∧
      (modify_compile 0 mods).remove_expression_parts =
        (mods.enum.filter (fun p => p.2.2 = DynamoDBValue.null)).map
          (fun p => "#key" ++ toString p.1) ∧
      (modify_compile 0 mods).attribute_values =
        (mods.enum.filter (fun p => p.2.2 ≠ DynamoDBValue.null)).map
          (fun p => (":value" ++ toString p.1, p.2.2))) := by
  refine ⟨by decide, by decide, fun mods => ?_⟩
  rw [show mods.enum = List.enumFrom 0 mods from rfl, modify_compile_enumFrom]
  exact ⟨rfl, rfl, rfl, rfl⟩

/-- A request to the external store's paginated scan operation
(`self.table.scan(...)`), as issued by `DynamoDBMapping.scan`: the only
keyword arguments the modelled code ever passes are `ProjectionExpression`
(from `__iter__`) and `ExclusiveStartKey` (the continuation token, of an
opaque type `τ` that the code never inspects). -/
structure ScanRequest (τ : Type) where
  projectionExpression : Option String := none
  exclusiveStartKey : Option τ := none
  deriving DecidableEq, Repr

/-- A response of the external store's scan operation: the page of items and
the optional `LastEvaluatedKey` continuation token. -/
structure ScanResponse (τ : Type) where
  items : List Item
  lastEvaluatedKey : Option τ := none
  deriving DecidableEq, Repr

/-- The `while "LastEvaluatedKey" in response` tail of the `scan` generator
(source lines 372-375), fully unfolded: starting from the continuation token
of the previous response, issue follow-up requests that carry ONLY the
`ExclusiveStartKey` (the source does not forward the original kwargs), and
collect the requests issued and the items yielded.  `fuel` bounds the number
of follow-up fetches (the Python loop runs unboundedly; every store modelled
here is finite). -/
def scanFollow (scan_fn : ScanRequest τ → ScanResponse τ) :
    Nat → Option τ → List (ScanRequest τ) × List Item
  | _, none => ([], [])
  | 0, some _ => ([], [])
  | fuel + 1, some t =>
      let req : ScanRequest τ := { exclusiveStartKey := some t }
      let response := scan_fn req
      let rest := scanFollow scan_fn fuel response.lastEvaluatedKey
      (req :: rest.1, response.items ++ rest.2)

/-- `DynamoDBMapping.scan` (source lines 352-375) run to exhaustion: the
initial request carries the caller's kwargs; the items of its response are
yielded, then the continuation tail follows.  Returns the full list of page
requests issued and items yielded, in order. -/
def scanAll (scan_fn : ScanRequest τ → ScanResponse τ) (fuel : Nat)
    (kwargs : ScanRequest τ) : List (ScanRequest τ) × List Item :=
  let response := scan_fn kwargs
  let rest := scanFollow scan_fn fuel response.lastEvaluatedKey
  (kwargs :: rest.1, response.items ++ rest.2)

/-- The suspension state of the `scan` generator between two `next()` calls:
not yet started (the generator body has not run; no request issued), inside a
page (remaining buffered items plus the current response's continuation
token), or exhausted. -/
inductive ScanGenState (τ : Type) where
  | notStarted (kwargs : ScanRequest τ)
  | inPage (buffer : List Item) (token : Option τ)
  | finished
  deriving DecidableEq, Repr

/-- The fetch loop entered when the current page buffer is exhausted: while a
continuation token is present, issue a follow-up request (carrying only the
token) until a page with at least one item arrives (`some` of first item,
remaining buffer, new token) or pagination ends (`none`).  Returns the
requests issued during this `next()` call. -/
def scanRefill (scan_fn : ScanRequest τ → ScanResponse τ) :
    Nat → Option τ → List (ScanRequest τ) × Option (Item × List Item × Option τ)
  | _, none => ([], none)
  | 0, some _ => ([], none)
  | fuel + 1, some t =>
      let req : ScanRequest τ := { exclusiveStartKey := some t }
      let response := scan_fn req
      match response.items with
      | i :: rest => ([req], some (i, rest, response.lastEvaluatedKey))
      | [] =>
          let r := scanRefill scan_fn fuel response.lastEvaluatedKey
          (req :: r.1, r.2)

/-- One `next()` call on the `scan` generator: the requests issued during the
call, the item yielded (`none` = `StopIteration`), and the new suspension
state.  The first `next()` issues the initial request with the caller's
kwargs; later calls serve the buffer and refill it through the continuation
tokens. -/
def scanNext (scan_fn : ScanRequest τ → ScanResponse τ) (fuel : Nat) :
    ScanGenState τ → List (ScanRequest τ) × Option Item × ScanGenState τ
  | .notStarted kwargs =>
      let response := scan_fn kwargs
      match response.items with
      | i :: rest => ([kwargs], some i, .inPage rest response.lastEvaluatedKey)
      | [] =>
          match scanRefill scan_fn fuel response.lastEvaluatedKey with
          | (reqs, some (i, rest, token)) => (kwargs :: reqs, some i, .inPage rest token)
          | (reqs, none) => (kwargs :: reqs, none, .finished)
  | .inPage (i :: rest) token => ([], some i, .inPage rest token)
  | .inPage [] token =>
      match scanRefill scan_fn fuel token with
      | (reqs, some (i, rest, token')) => (reqs, some i, .inPage rest token')
      | (reqs, none) => (reqs, none, .finished)
  | .finished => ([], none, .finished)

/-- Drive `n` successive `next()` calls on the generator, accumulating all
requests issued and all items yielded. -/
def scanDrive (scan_fn : ScanRequest τ → ScanResponse τ) (fuel : Nat) :
    Nat → ScanGenState τ → List (ScanRequest τ) × List Item × ScanGenState τ
  | 0, st => ([], [], st)
  | n + 1, st =>
      match scanNext scan_fn fuel st with
      | (reqs, some i, st') =>
          let r := scanDrive scan_fn fuel n st'
          (reqs ++ r.1, i :: r.2.1, r.2.2)
      | (reqs, none, st') => (reqs, [], st')

/-- Modelled from the spec: an external store for the §6 `scanPage` contract
whose scan sequence is the two-page scenario of §8 «Scan pagination» — the
first request (no exclusive start position) answers with items `[A]` and
continuation token `"X"`; a request carrying a start position answers with
items `[B]` and no token. -/
def twoPageStore (A B : Item) : ScanRequest String → ScanResponse String :=
  fun req =>
    match req.exclusiveStartKey with
    | none => { items := [A], lastEvaluatedKey := some "X" }
    | some _ => { items := [B] }

/-- C6: against a store whose scan returns page 1 with items `[A]` and
continuation token `"X"` and then page 2 with items `[B]` and no token, the
lazy scan iterator (a) issues no page request before the first `next()`,
(b) after one `next()` has yielded exactly `A` and issued exactly the one
initial page request, with page 2 not prefetched, (c) after two `next()`
calls has yielded exactly `A` then `B` and issued exactly 2 page requests,
the second carrying `"X"` as its exclusive start position, and (d) running
the iterator to exhaustion yields exactly `[A, B]` with exactly those same 2
page requests. -/
theorem C6_scan_pagination (A B : Item) (proj : Option String) :
    (scanDrive (twoPageStore A B) 1 0
        (.notStarted { projectionExpression := proj }) =
      ([], [], .notStarted { projectionExpression := proj })) ∧
    (scanDrive (twoPageStore A B) 1 1
        (.notStarted { projectionExpression := proj }) =
      ([{ projectionExpression := proj }], [A], .inPage [] (some "X"))) ∧
    (scanDrive (twoPageStore A B) 1 2
        (.notStarted { projectionExpression := proj }) =
      ([{ projectionExpression := proj }, { exclusiveStartKey := some "X" }],
        [A, B], .inPage [] none)) ∧
    (scanDrive (twoPageStore A B) 1 3
        (.notStarted { projectionExpression := proj }) =
      ([{ projectionExpression := proj }, { exclusiveStartKey := some "X" }],
        [A, B], .finished)) := by
  refine ⟨rfl, rfl, rfl, rfl⟩

/-- `DynamoDBMapping._key_values_from_item` (source lines 540-541):
`tuple(item[key] for key in self.key_names)`; `none` stands for the
`KeyError` raised when an item lacks one of the schema attributes. -/
def key_values_from_item (key_names : List String) (item : Item) :
    Option (List DynamoDBValue) :=
  key_names.mapM (fun k => dictGet item k)

/-- `DynamoDBMapping.__iter__` (source lines 543-556) run to exhaustion: a
scan whose initial kwargs carry
`ProjectionExpression=", ".join(self.key_names)`, each scanned item mapped to
`simplify_tuple_keys(self._key_values_from_item(item))`.  Returns the page
requests issued and the yielded simplified keys (per item, `none` standing
for a `KeyError` of the key extraction). -/
def mappingIterKeys (key_names : List String)
    (scan_fn : ScanRequest τ → ScanResponse τ) (fuel : Nat) :
    List (ScanRequest τ) × List (Option PyKeyObject) :=
  let r := scanAll scan_fn fuel
    { projectionExpression := some (String.intercalate ", " key_names) }
  (r.1, r.2.map (fun item => (key_values_from_item key_names item).map simplify_tuple_keys))

/-- A concrete store for the C1 counterexample: table schema `["pk"]`, two
pages.  The store answers any initial request (no exclusive start position)
with the single item `{pk: "a"}` and token `"T"`, and any continuation
request with the single item `{pk: "b"}` and no token. -/
def projDropStore : ScanRequest String → ScanResponse String :=
  fun req =>
    match req.exclusiveStartKey with
    | none => { items := [[("pk", .str "a")]], lastEvaluatedKey := some "T" }
    | some _ => { items := [[("pk", .str "b")]] }

/-- Modelled from the spec: a general finite external store for the §6
`scanPage` contract.  A token is the (opaque to the client) list of pages
remaining after the page it was returned with; serving a page list yields its
head and a token exactly when further pages remain. -/
def servePages : List (List Item) → ScanResponse (List (List Item))
  | [] => { items := [] }
  | p :: rest =>
      { items := p,
        lastEvaluatedKey := if rest = [] then none else some rest }

/-- Modelled from the spec: the scan endpoint of the finite paged store — an
initial request is served from the full page list, a continuation request
from the pages its token stands for. -/
def pageStore (pages : List (List Item)) :
    ScanRequest (List (List Item)) → ScanResponse (List (List Item)) :=
  fun req => servePages (req.exclusiveStartKey.getD pages)

/-- The follow-up requests the generator issues on the finite paged store
when it resumes from a token: one token-only request per fetch. -/
def followReqs : List (List Item) → List (ScanRequest (List (List Item)))
  | [] => [{ exclusiveStartKey := some [] }]
  | p :: rest =>
      { exclusiveStartKey := some (p :: rest) } ::
        (if rest = [] then [] else followReqs rest)

/-- Every follow-up request carries no projection and some start token. -/
theorem followReqs_shape (rest : List (List Item)) :
    ∀ r ∈ followReqs rest,
      r.projectionExpression = none ∧ r.exclusiveStartKey.isSome := by
  induction rest with
  | nil =>
      intro r hr
      simp only [followReqs, List.mem_singleton] at hr
      subst hr
      exact ⟨rfl, rfl⟩
  | cons p rr ih =>
      intro r hr
      simp only [followReqs, List.mem_cons] at hr
      rcases hr with hr | hr
      · subst hr; exact ⟨rfl, rfl⟩
      · by_cases hrr : rr = []
        · rw [if_pos hrr] at hr; simp at hr
        · rw [if_neg hrr] at hr; exact ih r hr

/-- On the finite paged store, the continuation tail of the generator issues
exactly the token-only follow-up requests and yields the concatenation of the
remaining pages. -/
theorem scanFollow_pageStore (pages : List (List Item)) :
    ∀ (rest : List (List Item)) (fuel : Nat), rest.length + 1 ≤ fuel →
      scanFollow (pageStore pages) fuel (some rest) =
        (followReqs rest, rest.flatten) := by
  intro rest
  induction rest with
  | nil =>
      intro fuel hf
      cases fuel with
      | zero => simp at hf
      | succ fuel => simp [scanFollow, pageStore, servePages, followReqs]
  | cons p rr ih =>
      intro fuel hf
      cases fuel with
      | zero => simp at hf
      | succ fuel =>
          simp only [List.length_cons, Nat.add_le_add_iff_right] at hf
          have hf : rr.length + 1 ≤ fuel := hf
          by_cases hrr : rr = []
          · subst hrr
            simp [scanFollow, pageStore, servePages, followReqs]
          · simp [scanFollow, pageStore, servePages, followReqs, if_neg hrr,
              ih fuel hf]

/-- C1 counterexample: against the two-page store `projDropStore` for a table
with schema `["pk"]`, iterating the mapping's keys issues a first page
request whose projection is the schema attribute names, but the follow-up
page request carries NO projection (`DynamoDBMapping.scan` forwards only
`ExclusiveStartKey` to follow-up requests, dropping the original kwargs), so
it is not the case that every page request of the scan sequence fetches only
the schema attribute names. -/
theorem C1_counterexample :
    ((mappingIterKeys ["pk"] projDropStore 2).1.map
        (fun r => r.projectionExpression) = [some "pk", none]) ∧
    ¬ (∀ r ∈ (mappingIterKeys ["pk"] projDropStore 2).1,
        r.projectionExpression = some (String.intercalate ", " ["pk"])) := by
  exact ⟨by decide, by decide⟩

/-- C1 (amended): for every table (finite paged store) and key schema,
iterating the mapping's keys runs a scan whose INITIAL page request fetches
only the schema attribute names (projection `", ".join(key_names)`, no start
position); every follow-up page request carries only the continuation token
of the previous response and no projection; and the iteration yields, in scan
order, each scanned item's native key (the tuple of its schema attribute
values) simplified by the Key Codec. -/
theorem C1_iter_projected_scan (key_names : List String)
    (pages : List (List Item)) :
    ((mappingIterKeys key_names (pageStore pages) pages.length).1.head? =
      some { projectionExpression := some (String.intercalate ", " key_names),
             exclusiveStartKey := none }) ∧
    (∀ req ∈ (mappingIterKeys key_names (pageStore pages) pages.length).1.tail,
      req.projectionExpression = none ∧ req.exclusiveStartKey.isSome) ∧
    ((mappingIterKeys key_names (pageStore pages) pages.length).2 =
      pages.flatten.map (fun item =>
        (key_values_from_item key_names item).map simplify_tuple_keys)) := by
  cases pages with
  | nil =>
      refine ⟨rfl, ?_, rfl⟩
      intro req hreq
      simp [mappingIterKeys, scanAll, pageStore, servePages, scanFollow] at hreq
  | cons p rest =>
      by_cases hrest : rest = []
      · subst hrest
        refine ⟨rfl, ?_, ?_⟩
        · intro req hreq
          simp [mappingIterKeys, scanAll, pageStore, servePages, scanFollow] at hreq
        · simp [mappingIterKeys, scanAll, pageStore, servePages, scanFollow]
      · have hfollow : scanFollow (pageStore (p :: rest)) (rest.length + 1)
            (some rest) = (followReqs rest, rest.flatten) := by
          simpa using scanFollow_pageStore (p :: rest) rest (p :: rest).length
            (by simp)
        refine ⟨rfl, ?_, ?_⟩
        · intro req hreq
          simp only [mappingIterKeys, scanAll, pageStore, servePages,
            Option.getD, if_neg hrest, List.tail_cons, List.length_cons,
            hfollow] at hreq
          exact followReqs_shape rest req hreq
        · simp [mappingIterKeys, scanAll, pageStore, servePages,
            if_neg hrest, hfollow]

/-- The Python exceptions the modelled layer can surface: `ValueError` for a
key of the wrong cardinality, `KeyError` for an absent item, and a generic
remote-operation failure raised by the external store client (§6/§7
«Remote-operation-failure»). -/
inductive PyErr where
  | valueError
  | keyError
  | clientError
  deriving DecidableEq, Repr

/-- A remote call issued to the external store client, with the arguments the
source passes: a scan page request, `get_item(Key=...)`, `put_item(Item=...)`,
`delete_item(Key=...)`, or `update_item` with the compiled expression and the
conditionally included placeholder maps. -/
inductive RemoteCall (τ : Type) where
  | scan_page (req : ScanRequest τ)
  | get_item_call (key : PyDict)
  | put_item_call (item : Item)
  | delete_item_call (key : PyDict)
  | update_item_call (key : PyDict) (update_expression : String)
      (expression_attribute_names : Option (List (String × String)))
      (expression_attribute_values : Option (List (String × DynamoDBValue)))
  deriving DecidableEq, Repr

/-- Whether a remote call is a scan page request. -/
def RemoteCall.isScanPage : RemoteCall τ → Bool
  | .scan_page _ => true
  | _ => false

/-- Whether a remote call is a single-item `get_item` fetch. -/
def RemoteCall.isGetItem : RemoteCall τ → Bool
  | .get_item_call _ => true
  | _ => false

/-- The mapping together with the external table it talks to: the key schema
attribute names (fixed at construction from the table metadata), and —
modelled from the spec, §6 — the store's persisted item state (rows addressed
by their native key parameters) plus an environment flag making the store's
`updateItem` raise a remote-operation failure, to exercise the §7 propagation
policy. -/
structure TableModel where
  key_names : List String
  rows : List (PyDict × Item)
  update_fails : Bool := false
  deriving DecidableEq, Repr

/-- Modelled from the spec: the external store's `getItem` (§6) — the stored
item for the given native key parameters, absent signalling not-found. -/
def storeGet (rows : List (PyDict × Item)) (key_params : PyDict) : Option Item :=
  (rows.find? (fun r => r.1 == key_params)).map (fun r => r.2)

/-- Modelled from the spec: the external store's `putItem` (§6) — an
unconditional overwrite of the row addressed by the key parameters. -/
def storePut (rows : List (PyDict × Item)) (key_params : PyDict) (item : Item) :
    List (PyDict × Item) :=
  if rows.any (fun r => r.1 == key_params) then
    rows.map (fun r => if r.1 == key_params then (key_params, item) else r)
  else
    rows ++ [(key_params, item)]

/-- Modelled from the spec: the external store's `deleteItem` (§6) — removes
the addressed row if present; deleting an absent key is a no-op, never an
error. -/
def storeDelete (rows : List (PyDict × Item)) (key_params : PyDict) :
    List (PyDict × Item) :=
  rows.filter (fun r => r.1 != key_params)

/-- Modelled from the spec: the effect of one compiled update instruction on
an item (§3 «Update Compiler Output», §4.2) — each SET assignment (a non-null
entry of the modification mapping) sets the attribute to its new value, each
REMOVE directive (a null entry) deletes the attribute. -/
def updateEffect (modifications : List (String × DynamoDBValue)) (item : Item) :
    Item :=
  modifications.foldl
    (fun it kv =>
      if kv.2 = DynamoDBValue.null then dictRemove it kv.1
      else dictSet it kv.1 kv.2)
    item

/-- Modelled from the spec: the external store's `updateItem` (§6) applying
the compiled instruction to the addressed row; if no row exists the store
creates the item from the key attributes and applies the instruction to it. -/
def storeUpdate (rows : List (PyDict × Item)) (key_params : PyDict)
    (modifications : List (String × DynamoDBValue)) : List (PyDict × Item) :=
  match storeGet rows key_params with
  | some item =>
      rows.map (fun r =>
        if r.1 == key_params then (key_params, updateEffect modifications item)
        else r)
  | none => rows ++ [(key_params, updateEffect modifications key_params)]

/-- The result of one mapping operation: the value or raised exception, the
remote calls issued (in order), the number of warnings emitted, and the table
(store state) afterwards. -/
structure OpResult (α : Type) where
  result : Except PyErr α
  calls : List (RemoteCall String)
  warnings : Nat
  table : TableModel

/-- `DynamoDBItemAccessor` (source lines 224-249): the owning mapping's key
of the item and the local dictionary snapshot (`dict` superclass data). -/
structure DynamoDBItemAccessor where
  item_keys : PyKeyObject
  data : PyDict
  deriving DecidableEq, Repr

namespace DynamoDBMapping

/-- `DynamoDBMapping._create_key_param` (source lines 341-350): expand the
simplified key with `create_tuple_keys`; raise `ValueError` if the number of
expanded elements differs from the key schema length; otherwise zip the
schema names with the key values. -/
def _create_key_param (key_names : List String) (keys : PyKeyObject) :
    Except PyErr PyDict :=
  let tuple_keys := create_tuple_keys keys
  if tuple_keys.length ≠ key_names.length then .error .valueError
  else .ok (key_names.zip tuple_keys)

/-- `DynamoDBMapping.get_item` (source lines 377-414): build the key
parameters (raising `ValueError` locally, before any remote call, on a
cardinality mismatch), issue one `get_item` fetch, raise `KeyError` when the
response has no item, otherwise wrap the data in an item accessor. -/
def get_item (t : TableModel) (keys : PyKeyObject) :
    OpResult DynamoDBItemAccessor :=
  match _create_key_param t.key_names keys with
  | .error e => ⟨.error e, [], 0, t⟩
  | .ok key_params =>
      match storeGet t.rows key_params with
      | none => ⟨.error .keyError, [.get_item_call key_params], 0, t⟩
      | some data =>
          ⟨.ok ⟨keys, data⟩, [.get_item_call key_params], 0, t⟩

/-- `DynamoDBMapping.set_item` (source lines 416-441): build the key
parameters, copy the supplied item and overlay the key attributes (key values
win over same-named entries), issue one unconditional `put_item`. -/
def set_item (t : TableModel) (keys : PyKeyObject) (item : Item) :
    OpResult Unit :=
  match _create_key_param t.key_names keys with
  | .error e => ⟨.error e, [], 0, t⟩
  | .ok key_params =>
      let _item := key_params.foldl (fun d kv => dictSet d kv.1 kv.2)
        (item.foldl (fun d kv => dictSet d kv.1 kv.2) [])
      ⟨.ok (), [.put_item_call _item], 0,
        { t with rows := storePut t.rows key_params _item }⟩

/-- `DynamoDBMapping.del_item` (source lines 449-472): build the key
parameters; when `check_existing`, test `keys not in self.keys()` — the keys
view containment delegates to `self._mapping[key]`, i.e. one `get_item`
fetch whose `KeyError` is caught — and raise `KeyError` if absent; then
issue the unconditional `delete_item`. -/
def del_item (t : TableModel) (keys : PyKeyObject) (check_existing : Bool) :
    OpResult Unit :=
  match _create_key_param t.key_names keys with
  | .error e => ⟨.error e, [], 0, t⟩
  | .ok key_params =>
      if check_existing then
        let g := get_item t keys
        match g.result with
        | .error _ => ⟨.error .keyError, g.calls, 0, t⟩
        | .ok _ =>
            ⟨.ok (), g.calls ++ [.delete_item_call key_params], 0,
              { t with rows := storeDelete t.rows key_params }⟩
      else
        ⟨.ok (), [.delete_item_call key_params], 0,
          { t with rows := storeDelete t.rows key_params }⟩

/-- `DynamoDBMapping.modify_item` (source lines 474-538): build the key
parameters; compile the modification mapping; when no clause was produced
(empty modifications) emit one warning and return without any remote call;
otherwise issue one `update_item` carrying the update expression and the
placeholder maps (each included only when non-empty).  The store either
applies the instruction or — when the environment makes it fail — raises a
remote-operation failure that propagates unchanged (§7), leaving the store
unmodified. -/
def modify_item (t : TableModel) (keys : PyKeyObject)
    (modifications : List (String × DynamoDBValue)) : OpResult Unit :=
  match _create_key_param t.key_names keys with
  | .error e => ⟨.error e, [], 0, t⟩
  | .ok key_params =>
      let c := modify_compile 0 modifications
      if update_expression_parts c = [] then
        ⟨.ok (), [], 1, t⟩
      else
        let call := RemoteCall.update_item_call key_params (update_expression c)
          (if c.attribute_names = [] then none else some c.attribute_names)
          (if c.attribute_values = [] then none else some c.attribute_values)
        if t.update_fails then ⟨.error .clientError, [call], 0, t⟩
        else ⟨.ok (), [call], 0,
          { t with rows := storeUpdate t.rows key_params modifications }⟩

end DynamoDBMapping

/-- The outcome of `DynamoDBItemAccessor.__setitem__`: the raised exception
if any, the accessor afterwards, the remote calls issued, warnings, and the
table afterwards. -/
structure AccessorSetResult where
  result : Except PyErr Unit
  accessor : DynamoDBItemAccessor
  calls : List (RemoteCall String)
  warnings : Nat
  table : TableModel

/-- `DynamoDBItemAccessor.__setitem__` (source lines 247-249): first call the
parent mapping's `modify_item` with the one-entry modification
`{key: value}`; only if that returns (does not raise) perform the local
`dict.__setitem__`. -/
def DynamoDBItemAccessor.setitem (t : TableModel)
    (acc : DynamoDBItemAccessor) (key : String) (value : DynamoDBValue) :
    AccessorSetResult :=
  let m := DynamoDBMapping.modify_item t acc.item_keys [(key, value)]
  match m.result with
  | .error e => ⟨.error e, acc, m.calls, m.warnings, m.table⟩
  | .ok _ => ⟨.ok (), { acc with data := dictSet acc.data key value },
      m.calls, m.warnings, m.table⟩

/-- After `d[k] = v`, looking up `k` yields `v`. -/
theorem dictGet_dictSet (d : PyDict) (k : String) (v : DynamoDBValue) :
    dictGet (dictSet d k v) k = some v := by
  induction d with
  | nil => simp [dictGet, dictSet, List.find?_cons_of_pos]
  | cons kv rest ih =>
      by_cases h : kv.1 = k
      · simp [dictSet, h, dictGet, List.find?_cons_of_pos]
      · have hb : (kv.1 == k) = false := beq_eq_false_iff_ne.mpr h
        simp only [dictSet, hb, Bool.false_eq_true, if_false]
        rw [dictGet, List.find?_cons_of_neg _ (by simp [hb])]
        exact ih

/-- After `d[k] = v`, the dictionary contains `k`. -/
theorem dictContains_dictSet (d : PyDict) (k : String) (v : DynamoDBValue) :
    dictContains (dictSet d k v) k = true := by
  induction d with
  | nil => simp [dictContains, dictSet]
  | cons kv rest ih =>
      by_cases h : kv.1 = k
      · simp [dictSet, h, dictContains]
      · have hb : (kv.1 == k) = false := beq_eq_false_iff_ne.mpr h
        simp only [dictSet, hb, Bool.false_eq_true, if_false]
        rw [dictContains, List.any_cons, hb]
        simpa [dictContains] using ih

/-- After removing `k`, looking up `k` fails. -/
theorem dictGet_dictRemove (d : PyDict) (k : String) :
    dictGet (dictRemove d k) k = none := by
  induction d with
  | nil => rfl
  | cons kv rest ih =>
      by_cases h : kv.1 = k
      · have hb : (kv.1 != k) = false := by simp [h]
        rw [dictRemove, List.filter_cons_of_neg (by simp [hb])]
        exact ih
      · have hb : (kv.1 == k) = false := beq_eq_false_iff_ne.mpr h
        rw [dictRemove, List.filter_cons_of_pos (by simpa using h)]
        rw [dictGet, List.find?_cons_of_neg _ (by simp [hb])]
        exact ih

/-- A key the store does not hold is untouched by `storeDelete`: deleting an
absent key leaves every row in place. -/
theorem storeDelete_absent (rows : List (PyDict × Item)) (key_params : PyDict)
    (habs : storeGet rows key_params = none) :
    storeDelete rows key_params = rows := by
  induction rows with
  | nil => rfl
  | cons r rest ih =>
      by_cases h : r.1 = key_params
      · rw [storeGet, List.find?_cons_of_pos _ (by simp [h])] at habs
        simp at habs
      · have hb : (r.1 == key_params) = false := beq_eq_false_iff_ne.mpr h
        rw [storeGet, List.find?_cons_of_neg _ (by simp [hb])] at habs
        rw [storeDelete, List.filter_cons_of_pos (by simpa using h)]
        rw [show List.filter (fun r => r.1 != key_params) rest =
          storeDelete rest key_params from rfl]
        rw [ih habs]

/-- Replacing the row addressed by present key parameters makes the store
hold the new item there. -/
theorem storeGet_map_replace (rows : List (PyDict × Item)) (key_params : PyDict)
    (newItem : Item) (hrow : (storeGet rows key_params).isSome = true) :
    storeGet (rows.map (fun r =>
        if r.1 == key_params then (key_params, newItem) else r)) key_params =
      some newItem := by
  induction rows with
  | nil => simp [storeGet] at hrow
  | cons r rest ih =>
      by_cases h : r.1 = key_params
      · simp only [List.map_cons, h, beq_self_eq_true, if_true]
        rw [storeGet, List.find?_cons_of_pos _ (by simp)]
        rfl
      · have hb : (r.1 == key_params) = false := beq_eq_false_iff_ne.mpr h
        rw [storeGet, List.find?_cons_of_neg _ (by simp [hb])] at hrow
        simp only [List.map_cons, hb, Bool.false_eq_true, if_false]
        rw [storeGet, List.find?_cons_of_neg _ (by simp [hb])]
        exact ih hrow

/-- After `storeUpdate` on a present row, the row holds the stored item with
the update applied. -/
theorem storeGet_storeUpdate (rows : List (PyDict × Item)) (key_params : PyDict)
    (modifications : List (String × DynamoDBValue)) (item : Item)
    (hrow : storeGet rows key_params = some item) :
    storeGet (storeUpdate rows key_params modifications) key_params =
      some (updateEffect modifications item) := by
  rw [storeUpdate, hrow]
  exact storeGet_map_replace rows key_params (updateEffect modifications item)
    (by rw [hrow]; rfl)

/-- C5: for every key-accepting operation (`get_item`, `set_item`,
`del_item`, `modify_item`), if the table's key schema has 1 attribute and the
supplied key expands to 2 elements, or the schema has 2 attributes and the
key expands to 1 element, the operation raises `ValueError` locally, with no
remote store call issued and the table untouched. -/
theorem C5_cardinality_enforcement (t : TableModel) (keys : PyKeyObject)
    (item : Item) (modifications : List (String × DynamoDBValue))
    (check_existing : Bool)
    (h : (t.key_names.length = 1 ∧ (create_tuple_keys keys).length = 2) ∨
         (t.key_names.length = 2 ∧ (create_tuple_keys keys).length = 1)) :
    DynamoDBMapping.get_item t keys = ⟨.error .valueError, [], 0, t⟩ ∧
    DynamoDBMapping.set_item t keys item = ⟨.error .valueError, [], 0, t⟩ ∧
    DynamoDBMapping.del_item t keys check_existing =
      ⟨.error .valueError, [], 0, t⟩ ∧
    DynamoDBMapping.modify_item t keys modifications =
      ⟨.error .valueError, [], 0, t⟩ := by
  have hne : (create_tuple_keys keys).length ≠ t.key_names.length := by
    rcases h with ⟨h1, h2⟩ | ⟨h1, h2⟩ <;> omega
  have hkp : DynamoDBMapping._create_key_param t.key_names keys =
      .error .valueError := by
    simp [DynamoDBMapping._create_key_param, hne]
  refine ⟨?_, ?_, ?_, ?_⟩ <;>
    simp [DynamoDBMapping.get_item, DynamoDBMapping.set_item,
      DynamoDBMapping.del_item, DynamoDBMapping.modify_item, hkp]

/-- Witness for `C5_cardinality_enforcement`: a table with the 1-attribute
schema `["pk"]` and the 2-element key `("a", "b")`. -/
theorem C5_cardinality_enforcement_witness :
    DynamoDBMapping.get_item { key_names := ["pk"], rows := [] }
        (.tup [.str "a", .str "b"]) =
      ⟨.error .valueError, [], 0, { key_names := ["pk"], rows := [] }⟩ :=
  (C5_cardinality_enforcement { key_names := ["pk"], rows := [] }
    (.tup [.str "a", .str "b"]) [] [] true (Or.inl ⟨rfl, rfl⟩)).1

/-- C7: for a key absent from the table, `del_item` with
`check_existing=True` raises `KeyError` after the single existence read (the
keys-view containment check, one `get_item` call) and issues no delete call,
leaving the store untouched; with `check_existing=False` it issues the
unconditional delete call with no prior existence read, does not raise, and
the delete of the nonexistent key is a no-op on the store. -/
theorem C7_delete_nonexistent (t : TableModel) (keys : PyKeyObject)
    (key_params : PyDict)
    (hkp : DynamoDBMapping._create_key_param t.key_names keys = .ok key_params)
    (habs : storeGet t.rows key_params = none) :
    DynamoDBMapping.del_item t keys true =
      ⟨.error .keyError, [.get_item_call key_params], 0, t⟩ ∧
    DynamoDBMapping.del_item t keys false =
      ⟨.ok (), [.delete_item_call key_params], 0, t⟩ := by
  constructor
  · simp [DynamoDBMapping.del_item, hkp, DynamoDBMapping.get_item, habs]
  · simp [DynamoDBMapping.del_item, hkp, storeDelete_absent t.rows key_params habs]

/-- Witness for `C7_delete_nonexistent`: an empty table with schema `["pk"]`
and the absent key `"ghost"`. -/
theorem C7_delete_nonexistent_witness :
    DynamoDBMapping.del_item { key_names := ["pk"], rows := [] }
        (.val (.str "ghost")) true =
      ⟨.error .keyError, [.get_item_call [("pk", .str "ghost")]], 0,
        { key_names := ["pk"], rows := [] }⟩ ∧
    DynamoDBMapping.del_item { key_names := ["pk"], rows := [] }
        (.val (.str "ghost")) false =
      ⟨.ok (), [.delete_item_call [("pk", .str "ghost")]], 0,
        { key_names := ["pk"], rows := [] }⟩ :=
  C7_delete_nonexistent { key_names := ["pk"], rows := [] }
    (.val (.str "ghost")) [("pk", .str "ghost")] rfl rfl

/-- C8: calling `modify_item` with an empty modification mapping issues zero
remote store calls, emits exactly one warning, does not raise, and leaves the
table (store state) unchanged.  (The key parameters are built first, so the
key must satisfy the schema cardinality check that precedes the empty-mapping
test.) -/
theorem C8_empty_modifications (t : TableModel) (keys : PyKeyObject)
    (hlen : (create_tuple_keys keys).length = t.key_names.length) :
    DynamoDBMapping.modify_item t keys [] = ⟨.ok (), [], 1, t⟩ := by
  simp [DynamoDBMapping.modify_item, DynamoDBMapping._create_key_param, hlen,
    modify_compile, update_expression_parts]

/-- Witness for `C8_empty_modifications`: schema `["pk"]`, key `"k"`. -/
theorem C8_empty_modifications_witness :
    DynamoDBMapping.modify_item
        { key_names := ["pk"], rows := [([("pk", .str "k")], [("pk", .str "k")])] }
        (.val (.str "k")) [] =
      ⟨.ok (), [], 1,
        { key_names := ["pk"], rows := [([("pk", .str "k")], [("pk", .str "k")])] }⟩ :=
  C8_empty_modifications
    { key_names := ["pk"], rows := [([("pk", .str "k")], [("pk", .str "k")])] }
    (.val (.str "k")) (by decide)

/-- C4: setting field `f` of an item accessor to value `v` issues exactly one
remote partial-update call, carrying the compiled modification `{f: v}`,
before the local snapshot is mutated; if the remote update raises, the
failure propagates and the local snapshot is unchanged; on success the
accessor's local value for `f` equals `v`. -/
theorem C4_accessor_write_through (t : TableModel)
    (acc : DynamoDBItemAccessor) (f : String) (v : DynamoDBValue)
    (key_params : PyDict)
    (hkp : DynamoDBMapping._create_key_param t.key_names acc.item_keys =
      .ok key_params) :
    ((DynamoDBItemAccessor.setitem t acc f v).calls =
      [RemoteCall.update_item_call key_params
        (update_expression (modify_compile 0 [(f, v)]))
        (some [("#key0", f)])
        (if v = DynamoDBValue.null then none else some [(":value0", v)])]) ∧
    (t.update_fails = true →
      (DynamoDBItemAccessor.setitem t acc f v).result = .error .clientError ∧
      (DynamoDBItemAccessor.setitem t acc f v).accessor = acc) ∧
    (t.update_fails = false →
      (DynamoDBItemAccessor.setitem t acc f v).result = .ok () ∧
      dictGet (DynamoDBItemAccessor.setitem t acc f v).accessor.data f =
        some v) := by
  have hk0 : "#key" ++ toString (0 : Nat) = "#key0" := rfl
  have hv0 : ":value" ++ toString (0 : Nat) = ":value0" := rfl
  cases hu : t.update_fails with
  | true =>
      refine ⟨?_, ?_, ?_⟩
      · by_cases hv : v = DynamoDBValue.null <;>
          simp [DynamoDBItemAccessor.setitem, DynamoDBMapping.modify_item, hkp,
            hu, hv, modify_compile, update_expression_parts, update_expression,
            hk0, hv0]
      · intro _
        constructor <;>
          by_cases hv : v = DynamoDBValue.null <;>
            simp [DynamoDBItemAccessor.setitem, DynamoDBMapping.modify_item,
              hkp, hu, hv, modify_compile, update_expression_parts,
              update_expression, hk0, hv0]
      · intro hc
        exact nomatch hc
  | false =>
      refine ⟨?_, ?_, ?_⟩
      · by_cases hv : v = DynamoDBValue.null <;>
          simp [DynamoDBItemAccessor.setitem, DynamoDBMapping.modify_item, hkp,
            hu, hv, modify_compile, update_expression_parts, update_expression,
            hk0, hv0]
      · intro hc
        exact nomatch hc
      · intro _
        constructor <;>
          by_cases hv : v = DynamoDBValue.null <;>
            simp [DynamoDBItemAccessor.setitem, DynamoDBMapping.modify_item,
              hkp, hu, hv, modify_compile, update_expression_parts,
              update_expression, hk0, hv0, dictGet_dictSet]

/-- Witness for `C4_accessor_write_through`: schema `["pk"]`, accessor for
the item keyed `"k"`, setting `"title"` to `"X"` against a store whose update
succeeds. -/
theorem C4_accessor_write_through_witness :
    ((DynamoDBItemAccessor.setitem
        { key_names := ["pk"], rows := [([("pk", .str "k")], [("pk", .str "k")])] }
        ⟨.val (.str "k"), [("pk", .str "k")]⟩ "title" (.str "X")).calls =
      [RemoteCall.update_item_call [("pk", .str "k")]
        (update_expression (modify_compile 0 [("title", .str "X")]))
        (some [("#key0", "title")])
        (if DynamoDBValue.str "X" = DynamoDBValue.null then none
         else some [(":value0", .str "X")])]) ∧
    ((DynamoDBItemAccessor.setitem
        { key_names := ["pk"], rows := [([("pk", .str "k")], [("pk", .str "k")])] }
        ⟨.val (.str "k"), [("pk", .str "k")]⟩ "title" (.str "X")).result = .ok () ∧
      dictGet (DynamoDBItemAccessor.setitem
        { key_names := ["pk"], rows := [([("pk", .str "k")], [("pk", .str "k")])] }
        ⟨.val (.str "k"), [("pk", .str "k")]⟩ "title" (.str "X")).accessor.data
        "title" = some (.str "X")) := by
  have h := C4_accessor_write_through
    { key_names := ["pk"], rows := [([("pk", .str "k")], [("pk", .str "k")])] }
    ⟨.val (.str "k"), [("pk", .str "k")]⟩ "title" (.str "X")
    [("pk", .str "k")] rfl
  exact ⟨h.1, h.2.2 rfl⟩

/-- C10: setting an accessor field `f` to `None` issues a remote update whose
compiled instruction is pure REMOVE for that attribute (expression
`"remove #key0"` with `#key0 ↦ f` and no value placeholders), yet afterwards
the accessor's local snapshot still contains `f` bound to `None` — local
lookup and containment for `f` succeed — while the attribute no longer exists
in the item held by the store. -/
theorem C10_null_write_divergence (t : TableModel)
    (acc : DynamoDBItemAccessor) (f : String) (item : Item) (key_params : PyDict)
    (hkp : DynamoDBMapping._create_key_param t.key_names acc.item_keys =
      .ok key_params)
    (hrow : storeGet t.rows key_params = some item)
    (hok : t.update_fails = false) :
    ((DynamoDBItemAccessor.setitem t acc f DynamoDBValue.null).calls =
      [RemoteCall.update_item_call key_params "remove #key0"
        (some [("#key0", f)]) none]) ∧
    ((DynamoDBItemAccessor.setitem t acc f DynamoDBValue.null).result = .ok ()) ∧
    (dictGet (DynamoDBItemAccessor.setitem t acc f
        DynamoDBValue.null).accessor.data f = some DynamoDBValue.null) ∧
    (dictContains (DynamoDBItemAccessor.setitem t acc f
        DynamoDBValue.null).accessor.data f = true) ∧
    (storeGet (DynamoDBItemAccessor.setitem t acc f
        DynamoDBValue.null).table.rows key_params =
      some (dictRemove item f)) ∧
    (dictGet (dictRemove item f) f = none) := by
  have hc : modify_compile 0 [(f, DynamoDBValue.null)] =
      ⟨[], ["#key0"], [("#key0", f)], []⟩ := rfl
  have hexpr : update_expression
      (⟨[], ["#key0"], [("#key0", f)], []⟩ : CompiledUpdate) =
      "remove #key0" := rfl
  have heff : updateEffect [(f, DynamoDBValue.null)] item = dictRemove item f := by
    simp [updateEffect]
  have hupd := storeGet_storeUpdate t.rows key_params
    [(f, DynamoDBValue.null)] item hrow
  rw [heff] at hupd
  refine ⟨?_, ?_, ?_, ?_, ?_, dictGet_dictRemove item f⟩ <;>
    simp [DynamoDBItemAccessor.setitem, DynamoDBMapping.modify_item, hkp, hok,
      hc, hexpr, update_expression_parts, dictGet_dictSet, dictContains_dictSet,
      hupd]

/-- Witness for `C10_null_write_divergence`: schema `["pk"]`, item
`{pk: "k", title: "x"}`, accessor snapshot of that item, field `"title"` set
to `None`. -/
theorem C10_null_write_divergence_witness :
    ((DynamoDBItemAccessor.setitem
        { key_names := ["pk"],
          rows := [([("pk", .str "k")], [("pk", .str "k"), ("title", .str "x")])] }
        ⟨.val (.str "k"), [("pk", .str "k"), ("title", .str "x")]⟩
        "title" DynamoDBValue.null).calls =
      [RemoteCall.update_item_call [("pk", .str "k")] "remove #key0"
        (some [("#key0", "title")]) none]) ∧
    (dictGet (DynamoDBItemAccessor.setitem
        { key_names := ["pk"],
          rows := [([("pk", .str "k")], [("pk", .str "k"), ("title", .str "x")])] }
        ⟨.val (.str "k"), [("pk", .str "k"), ("title", .str "x")]⟩
        "title" DynamoDBValue.null).accessor.data "title" =
      some DynamoDBValue.null) ∧
    (storeGet (DynamoDBItemAccessor.setitem
        { key_names := ["pk"],
          rows := [([("pk", .str "k")], [("pk", .str "k"), ("title", .str "x")])] }
        ⟨.val (.str "k"), [("pk", .str "k"), ("title", .str "x")]⟩
        "title" DynamoDBValue.null).table.rows [("pk", .str "k")] =
      some (dictRemove [("pk", .str "k"), ("title", .str "x")] "title")) := by
  have h := C10_null_write_divergence
    { key_names := ["pk"],
      rows := [([("pk", .str "k")], [("pk", .str "k"), ("title", .str "x")])] }
    ⟨.val (.str "k"), [("pk", .str "k"), ("title", .str "x")]⟩
    "title" [("pk", .str "k"), ("title", .str "x")] [("pk", .str "k")]
    rfl rfl rfl
  exact ⟨h.1, h.2.2.1, h.2.2.2.2.1⟩

/-- The `for v in self._mapping.scan()` loop of
`DynamoDBValuesView.__contains__` (source lines 181-185) fused with the
suspended scan generator state (current page buffer and continuation token):
a match inside the already-fetched buffer returns `True` immediately, issuing
no further page request; an exhausted buffer with a pending token issues the
follow-up request (token only) and continues; an exhausted buffer with no
token returns `False`.  Records every remote call issued. -/
def values_contains_follow (isMatch : Item → Bool)
    (scan_fn : ScanRequest τ → ScanResponse τ) :
    Nat → List Item → Option τ → Bool × List (RemoteCall τ)
  | _, buffer, none => (buffer.any isMatch, [])
  | 0, buffer, some _ => (buffer.any isMatch, [])
  | fuel + 1, buffer, some t =>
      if buffer.any isMatch then (true, [])
      else
        let req : ScanRequest τ := { exclusiveStartKey := some t }
        let response := scan_fn req
        let r := values_contains_follow isMatch scan_fn fuel
          response.items response.lastEvaluatedKey
        (r.1, RemoteCall.scan_page req :: r.2)

/-- `DynamoDBValuesView.__contains__` (source lines 181-185): drive a fresh
no-kwargs scan and test each scanned item with `v is value or v == value`
(object identity, modelled by the environment-supplied relation `isSame`,
then dictionary equality), short-circuiting on the first match.  Returns the
result and the full list of remote calls issued. -/
def DynamoDBValuesView_contains (isSame : Item → Item → Bool) (value : Item)
    (scan_fn : ScanRequest τ → ScanResponse τ) (fuel : Nat) :
    Bool × List (RemoteCall τ) :=
  let kwargs : ScanRequest τ := {}
  let response := scan_fn kwargs
  let r := values_contains_follow (fun v => isSame v value || pyDictEq v value)
    scan_fn fuel response.items response.lastEvaluatedKey
  (r.1, RemoteCall.scan_page kwargs :: r.2)

/-- The number of scan pages the containment loop consumes: pages up to and
including the first page holding a match, or all pages when none isMatch
(always at least the one initial page). -/
def pagesScannedUntilMatch (isMatch : Item → Bool) : List (List Item) → Nat
  | [] => 1
  | p :: rest =>
      if p.any isMatch || rest.isEmpty then 1
      else 1 + pagesScannedUntilMatch isMatch rest

/-- The follow-up scan calls the containment loop issues on the finite paged
store when it resumes from a token, given that the current buffer had no
match. -/
def followContainsCalls (isMatch : Item → Bool) :
    List (List Item) → List (RemoteCall (List (List Item)))
  | [] => [RemoteCall.scan_page { exclusiveStartKey := some [] }]
  | p :: rest =>
      RemoteCall.scan_page { exclusiveStartKey := some (p :: rest) } ::
        (if p.any isMatch || rest.isEmpty then []
         else followContainsCalls isMatch rest)

/-- Every call of `followContainsCalls` is a scan page request. -/
theorem followContainsCalls_scan (isMatch : Item → Bool)
    (rest : List (List Item)) :
    ∀ c ∈ followContainsCalls isMatch rest, c.isScanPage = true := by
  induction rest with
  | nil =>
      intro c hc
      simp only [followContainsCalls, List.mem_singleton] at hc
      subst hc; rfl
  | cons p rr ih =>
      intro c hc
      simp only [followContainsCalls, List.mem_cons] at hc
      rcases hc with hc | hc
      · subst hc; rfl
      · by_cases hm : (p.any isMatch || rr.isEmpty) = true
        · rw [if_pos hm] at hc; simp at hc
        · rw [if_neg hm] at hc; exact ih c hc

/-- The containment loop fetches one page per element of
`pagesScannedUntilMatch`. -/
theorem followContainsCalls_length (isMatch : Item → Bool)
    (rest : List (List Item)) :
    (followContainsCalls isMatch rest).length =
      pagesScannedUntilMatch isMatch rest := by
  induction rest with
  | nil => rfl
  | cons p rr ih =>
      by_cases hm : (p.any isMatch || rr.isEmpty) = true
      · simp [followContainsCalls, pagesScannedUntilMatch, hm]
      · simp [followContainsCalls, pagesScannedUntilMatch, hm, ih]
        omega

/-- On the finite paged store, the containment loop resumed from a token
finds a match exactly when the remaining pages hold one, and (when the
current buffer has no match) issues exactly the calls of
`followContainsCalls`. -/
theorem values_follow_pageStore (pages : List (List Item))
    (isMatch : Item → Bool) :
    ∀ (rest : List (List Item)) (fuel : Nat) (buffer : List Item),
      rest.length + 1 ≤ fuel →
      values_contains_follow isMatch (pageStore pages) fuel buffer (some rest) =
        (if buffer.any isMatch then (true, [])
         else (rest.flatten.any isMatch, followContainsCalls isMatch rest)) := by
  intro rest
  induction rest with
  | nil =>
      intro fuel buffer hf
      cases fuel with
      | zero => simp at hf
      | succ fuel =>
          by_cases hb : buffer.any isMatch = true
          · simp [values_contains_follow, hb]
          · simp [values_contains_follow, hb, pageStore, servePages,
              followContainsCalls]
  | cons p rr ih =>
      intro fuel buffer hf
      cases fuel with
      | zero => simp at hf
      | succ fuel =>
          simp only [List.length_cons, Nat.add_le_add_iff_right] at hf
          have hf : rr.length + 1 ≤ fuel := hf
          by_cases hb : buffer.any isMatch = true
          · simp [values_contains_follow, hb]
          · by_cases hrr : rr = []
            · subst hrr
              by_cases hp : p.any isMatch = true <;>
                simp [values_contains_follow, hb, hp, pageStore, servePages,
                  followContainsCalls]
            · have hrr' : rr.isEmpty = false := by
                cases rr with
                | nil => exact absurd rfl hrr
                | cons a b => rfl
              by_cases hp : p.any isMatch = true
              · simp [values_contains_follow, hb, hp, pageStore, servePages,
                  if_neg hrr, followContainsCalls, hrr', ih fuel p hf]
              · simp [values_contains_follow, hb, hp, pageStore, servePages,
                  if_neg hrr, followContainsCalls, hrr', ih fuel p hf]

/-- `DynamoDBValuesView.__iter__` (source lines 187-188): a full pass —
`yield from self._mapping.scan()` with no kwargs. -/
def DynamoDBValuesView_iter (scan_fn : ScanRequest τ → ScanResponse τ)
    (fuel : Nat) : List (ScanRequest τ) × List Item :=
  scanAll scan_fn fuel {}

/-- A list of scan page calls contains no `get_item` call. -/
theorem countP_getItem_zero (l : List (RemoteCall τ))
    (h : ∀ c ∈ l, c.isScanPage = true) :
    l.countP (fun c => c.isGetItem) = 0 := by
  induction l with
  | nil => rfl
  | cons c rest ih =>
      have hc := h c (List.mem_cons_self c rest)
      have hg : c.isGetItem = false := by
        cases c <;> first
          | rfl
          | simp [RemoteCall.isScanPage] at hc
      rw [List.countP_cons, hg]
      simp [ih (fun x hx => h x (List.mem_cons_of_mem c hx))]

/-- The one-pass follow-up request count equals the page count. -/
theorem followReqs_length :
    ∀ rest : List (List Item), rest ≠ [] →
      (followReqs rest).length = rest.length := by
  intro rest
  induction rest with
  | nil => intro h; exact absurd rfl h
  | cons p rr ih =>
      intro _
      by_cases hrr : rr = []
      · subst hrr; rfl
      · simp [followReqs, if_neg hrr, ih hrr]

/-- C9: for every table (finite paged store), probe value and identity
relation, the values-view containment test scans once and never fetches by
key: its result is true exactly when some scanned item matches the probe
(first by identity `isSame`, then by dictionary equality, in that
disjunction); every remote call it issues is a scan page request and none is
a `get_item` call; it short-circuits, fetching pages only up to and
including the first page containing a match; and iterating the values view
performs exactly one scan pass — one page request per page (at least one)
and zero `get_item` calls — yielding every item. -/
theorem C9_values_view_one_pass (pages : List (List Item)) (value : Item)
    (isSame : Item → Item → Bool) :
    ((DynamoDBValuesView_contains isSame value (pageStore pages)
        pages.length).1 =
      pages.flatten.any (fun v => isSame v value || pyDictEq v value)) ∧
    (∀ c ∈ (DynamoDBValuesView_contains isSame value (pageStore pages)
        pages.length).2, c.isScanPage = true) ∧
    ((DynamoDBValuesView_contains isSame value (pageStore pages)
        pages.length).2.countP (fun c => c.isGetItem) = 0) ∧
    ((DynamoDBValuesView_contains isSame value (pageStore pages)
        pages.length).2.length =
      pagesScannedUntilMatch (fun v => isSame v value || pyDictEq v value)
        pages) ∧
    ((DynamoDBValuesView_iter (pageStore pages) pages.length).2 =
      pages.flatten) ∧
    ((DynamoDBValuesView_iter (pageStore pages) pages.length).1.length =
      max 1 pages.length) := by
  have hscan : ∀ τ' (req : ScanRequest τ'),
      (RemoteCall.scan_page req).isScanPage = true := fun _ _ => rfl
  cases pages with
  | nil =>
      refine ⟨rfl, ?_, rfl, rfl, rfl, rfl⟩
      intro c hc
      simp only [DynamoDBValuesView_contains, pageStore, servePages,
        Option.getD, values_contains_follow, List.mem_singleton] at hc
      subst hc; rfl
  | cons p rest =>
      by_cases hrest : rest = []
      · subst hrest
        have hcontains : DynamoDBValuesView_contains isSame value
            (pageStore [p]) [p].length =
            (p.any (fun v => isSame v value || pyDictEq v value),
              [RemoteCall.scan_page {}]) := rfl
        refine ⟨?_, ?_, ?_, ?_, ?_, ?_⟩
        · rw [hcontains]; simp
        · rw [hcontains]
          intro c hc
          simp only [List.mem_singleton] at hc
          subst hc; rfl
        · rw [hcontains]; rfl
        · rw [hcontains]; simp [pagesScannedUntilMatch]
        · simp [DynamoDBValuesView_iter, scanAll, pageStore, servePages,
            scanFollow]
        · simp [DynamoDBValuesView_iter, scanAll, pageStore, servePages,
            scanFollow]
      · have hrest' : rest.isEmpty = false := by
          cases rest with
          | nil => exact absurd rfl hrest
          | cons a b => rfl
        have hfollow := values_follow_pageStore (p :: rest)
          (fun v => isSame v value || pyDictEq v value) rest
          (p :: rest).length p (by simp)
        have hcontains : DynamoDBValuesView_contains isSame value
            (pageStore (p :: rest)) (p :: rest).length =
            (if p.any (fun v => isSame v value || pyDictEq v value) then
              (true, [RemoteCall.scan_page {}])
             else
              (rest.flatten.any (fun v => isSame v value || pyDictEq v value),
                RemoteCall.scan_page {} ::
                  followContainsCalls
                    (fun v => isSame v value || pyDictEq v value) rest)) := by
          by_cases hp : p.any (fun v => isSame v value || pyDictEq v value) =
              true <;>
            simp only [DynamoDBValuesView_contains, pageStore, servePages,
              Option.getD, if_neg hrest, hfollow, hp, if_true, if_false,
              Bool.false_eq_true]
        have hiter : DynamoDBValuesView_iter (pageStore (p :: rest))
            (p :: rest).length =
            (({} : ScanRequest (List (List Item))) :: followReqs rest,
              p ++ rest.flatten) := by
          have hsf : scanFollow (pageStore (p :: rest)) (rest.length + 1)
              (some rest) = (followReqs rest, rest.flatten) := by
            simpa using scanFollow_pageStore (p :: rest) rest
              (p :: rest).length (by simp)
          simp [DynamoDBValuesView_iter, scanAll, pageStore, servePages,
            if_neg hrest, hsf]
        by_cases hp : p.any (fun v => isSame v value || pyDictEq v value) = true
        · refine ⟨?_, ?_, ?_, ?_, ?_, ?_⟩
          · rw [hcontains, if_pos hp]; simp [hp]
          · rw [hcontains, if_pos hp]
            intro c hc
            simp only [List.mem_singleton] at hc
            subst hc; rfl
          · rw [hcontains, if_pos hp]; rfl
          · rw [hcontains, if_pos hp]
            simp [pagesScannedUntilMatch, hp]
          · rw [hiter]; simp
          · rw [hiter]
            simp [followReqs_length rest hrest]
        · have hallscan : ∀ c ∈ (DynamoDBValuesView_contains isSame value
              (pageStore (p :: rest)) (p :: rest).length).2,
              c.isScanPage = true := by
            rw [hcontains, if_neg hp]
            intro c hc
            simp only [List.mem_cons] at hc
            rcases hc with hc | hc
            · subst hc; rfl
            · exact followContainsCalls_scan _ rest c hc
          refine ⟨?_, hallscan, countP_getItem_zero _ hallscan, ?_, ?_, ?_⟩
          · rw [hcontains, if_neg hp]
            simp [hp]
          · rw [hcontains, if_neg hp]
            simp only [List.length_cons, followContainsCalls_length]
            simp [pagesScannedUntilMatch, hp, hrest']
            omega
          · rw [hiter]; simp
          · rw [hiter]
            simp [followReqs_length rest hrest]

/-- Witness for `C1_iter_projected_scan`: a two-page table with schema
`["pk"]` and items `{pk: "a"}`, `{pk: "b"}` yields the simplified keys
`"a"`, `"b"` in scan order. -/
theorem C1_iter_projected_scan_witness :
    (mappingIterKeys ["pk"]
        (pageStore [[[("pk", DynamoDBValue.str "a")]],
          [[("pk", DynamoDBValue.str "b")]]])
        ([[[("pk", DynamoDBValue.str "a")]],
          [[("pk", DynamoDBValue.str "b")]]] : List (List Item)).length).2 =
      [some (.val (.str "a")), some (.val (.str "b"))] :=
  (C1_iter_projected_scan ["pk"]
    [[[("pk", DynamoDBValue.str "a")]],
      [[("pk", DynamoDBValue.str "b")]]]).2.2.trans (by decide)

/-- Witness for `C9_values_view_one_pass`: a one-page table holding the item
`{pk: "a"}`; probing the values view for that item (with an identity relation
that never holds, so dictionary equality decides) succeeds. -/
theorem C9_values_view_one_pass_witness :
    (DynamoDBValuesView_contains (fun _ _ => false)
        [("pk", DynamoDBValue.str "a")]
        (pageStore [[[("pk", DynamoDBValue.str "a")]]])
        ([[[("pk", DynamoDBValue.str "a")]]] : List (List Item)).length).1 =
      true :=
  (C9_values_view_one_pass [[[("pk", DynamoDBValue.str "a")]]]
    [("pk", DynamoDBValue.str "a")] (fun _ _ => false)).1.trans (by decide)
